import Mathlib

/-!
Verification of the rankacy-lib book-lending core.

The data model and operations below are a shallow embedding of the
route handlers in `src/app/api/books/route.ts`,
`src/app/api/books/[id]/route.ts`, the rent/return and rentals-history
handlers, and the client-side "my rentals" aggregation in
`MyBooksPage.fetchData`.  User ids, book ids, rental ids and timestamps
are modelled as `Nat`; the Prisma store is a pair of lists; the ambient
session is an `Option Nat` (the authenticated user id, if any).
-/

/-- A Rental row: identifier, book reference, renter reference,
rent timestamp, nullable return timestamp. -/
structure Rental where
  id : Nat
  bookId : Nat
  userId : Nat
  rentedAt : Nat
  returnedAt : Option Nat
  deriving Repr, DecidableEq

/-- A Book row: identifier, title, author, optional isbn and
description, cover image, owner reference, creation timestamp. -/
structure Book where
  id : Nat
  title : String
  author : String
  isbn : Option String
  description : Option String
  coverImage : String
  ownerId : Nat
  createdAt : Nat
  deriving Repr, DecidableEq

/-- The persistent store: Book rows and Rental rows. -/
structure DB where
  books : List Book
  rentals : List Rental
  deriving Repr, DecidableEq

/-- Error taxonomy of the HTTP surface (section 7 of the design):
`unauthorized` = 401, `forbidden` = 403, `notFound` = 404,
`conflict` = the 400 "Book is already rented" business-rule rejection,
`badRequest` = the 400 missing-fields rejection. -/
inductive ErrKind where
  | unauthorized
  | forbidden
  | notFound
  | conflict
  | badRequest
  deriving Repr, DecidableEq

/-- The rentals of a book with `returnedAt = null`, in store order:
Prisma `rentals: { where: { returnedAt: null } }` for a given book. -/
def activeRentalsOf (db : DB) (bid : Nat) : List Rental :=
  db.rentals.filter (fun r => r.bookId == bid && r.returnedAt == none)

/-- One element of the `GET /api/books` response: the book spread
together with its (active-only) `rentals` array and the derived
`isAvailable` / `currentRental` fields. -/
structure BookWithStatus where
  book : Book
  rentals : List Rental
  isAvailable : Bool
  currentRental : Option Rental
  deriving Repr, DecidableEq

/-- `GET /api/books` (route.ts GET): fetch all books ordered by
`createdAt` descending, each including its active rentals; apply the
optional availability filter (`available=true` keeps books with
`rentals.length === 0`, `available=false` keeps `rentals.length > 0`);
then annotate each book with `isAvailable = (rentals.length === 0)` and
`currentRental = rentals[0] || null`. -/
def listBooks (db : DB) (available : Option Bool) : List BookWithStatus :=
  let ordered :=
    List.insertionSort (fun a b => b.createdAt ≤ a.createdAt) db.books
  let withRentals : List (Book × List Rental) :=
    ordered.map (fun b => (b, activeRentalsOf db b.id))
  let filteredBooks : List (Book × List Rental) :=
    match available with
    | some true => withRentals.filter (fun p => p.2.length == 0)
    | some false => withRentals.filter (fun p => p.2.length > 0)
    | none => withRentals
  filteredBooks.map (fun p =>
    { book := p.1, rentals := p.2,
      isAvailable := p.2.length == 0,
      currentRental := p.2.head? })

/-- The `GET /api/books/[id]` response body: the book, its full rental
history ordered by `rentedAt` descending, and the derived fields. -/
structure BookDetail where
  book : Book
  rentals : List Rental
  isAvailable : Bool
  currentRental : Option Rental
  deriving Repr, DecidableEq

/-- `GET /api/books/[id]` ([id]/route.ts GET): 404 when no book has the
id; otherwise include the full rental history ordered by `rentedAt`
descending, find the active rental (`!r.returnedAt`), and derive
`isAvailable = !activeRental`, `currentRental = activeRental || null`. -/
def getBook (db : DB) (bid : Nat) : Except ErrKind BookDetail :=
  match db.books.find? (fun b => b.id == bid) with
  | none => .error .notFound
  | some book =>
    let hist := List.insertionSort (fun a b => b.rentedAt ≤ a.rentedAt)
      (db.rentals.filter (fun r => r.bookId == bid))
    let activeRental := hist.find? (fun r => r.returnedAt == none)
    .ok { book := book, rentals := hist,
          isAvailable := activeRental.isNone,
          currentRental := activeRental }

/-- The JSON body of `POST /api/books`; each field may be absent. -/
structure CreateBody where
  title : Option String
  author : Option String
  isbn : Option String
  description : Option String
  coverImage : Option String
  deriving Repr, DecidableEq

/-- JavaScript truthiness of an optional string field: `!x` holds when
the field is absent (undefined/null) or the empty string. -/
def truthyStr : Option String → Bool
  | none => false
  | some s => s ≠ ""

/-- `POST /api/books` (route.ts POST): 401 without a session; 400 when
`!title || !author || !coverImage`; otherwise insert one Book row owned
by the session user.  `newId`/`now` stand for the store-generated id and
timestamp. -/
def createBook (db : DB) (session : Option Nat) (body : CreateBody)
    (newId now : Nat) : Except ErrKind (DB × Book) :=
  match session with
  | none => .error .unauthorized
  | some uid =>
    if !truthyStr body.title || !truthyStr body.author
        || !truthyStr body.coverImage then
      .error .badRequest
    else
      let book : Book :=
        { id := newId, title := body.title.getD "",
          author := body.author.getD "", isbn := body.isbn,
          description := body.description,
          coverImage := body.coverImage.getD "",
          ownerId := uid, createdAt := now }
      .ok ({ db with books := db.books ++ [book] }, book)

/-- `DELETE /api/books/[id]` ([id]/route.ts DELETE): 401 without a
session; 404 when the book is absent; 403 when the session user is not
the owner; otherwise `rental.deleteMany({ where: { bookId: id } })`
followed by `book.delete({ where: { id } })`. -/
def deleteBook (db : DB) (session : Option Nat) (bid : Nat) :
    Except ErrKind DB :=
  match session with
  | none => .error .unauthorized
  | some uid =>
    match db.books.find? (fun b => b.id == bid) with
    | none => .error .notFound
    | some book =>
      if book.ownerId != uid then .error .forbidden
      else
        .ok { books := db.books.filter (fun b => !(b.id == bid)),
              rentals := db.rentals.filter (fun r => !(r.bookId == bid)) }

/-- `POST /api/books/[id]/rent`: 401 without a session; 404 when the
book is absent; 400 "Book is already rented" (the Conflict case of the
taxonomy) when the book's active-rental list is non-empty; otherwise
create one Rental row for the session user with `returnedAt = null`. -/
def rentBook (db : DB) (session : Option Nat) (bid : Nat)
    (newId now : Nat) : Except ErrKind (DB × Rental) :=
  match session with
  | none => .error .unauthorized
  | some uid =>
    match db.books.find? (fun b => b.id == bid) with
    | none => .error .notFound
    | some _book =>
      if (activeRentalsOf db bid).length > 0 then .error .conflict
      else
        let rental : Rental :=
          { id := newId, bookId := bid, userId := uid,
            rentedAt := now, returnedAt := none }
        .ok ({ db with rentals := db.rentals ++ [rental] }, rental)

/-- `DELETE /api/books/[id]/rent`: 401 without a session; 404 when
`findFirst` sees no rental with this book id and null `returnedAt`;
403 when the active rental's renter differs from the session user;
otherwise `update` sets `returnedAt = now` on the row with the active
rental's id. -/
def returnBook (db : DB) (session : Option Nat) (bid : Nat) (now : Nat) :
    Except ErrKind (DB × Rental) :=
  match session with
  | none => .error .unauthorized
  | some uid =>
    match db.rentals.find? (fun r => r.bookId == bid
        && r.returnedAt == none) with
    | none => .error .notFound
    | some activeRental =>
      if activeRental.userId != uid then .error .forbidden
      else
        let updated := { activeRental with returnedAt := some now }
        let newRentals := db.rentals.map
          (fun r => if r.id == activeRental.id then updated else r)
        .ok ({ db with rentals := newRentals }, updated)

/-- The body of the `MyBooksPage.fetchData` loop for one book: push the
entries of the book's `rentals` array whose renter is the session user,
then, when `currentRental` belongs to the session user and no pushed
entry shares its id, push it too. -/
def myRentalsStep (uid : Nat) (acc : List Rental) (b : BookWithStatus) :
    List Rental :=
  let acc1 := acc ++ b.rentals.filter (fun r => r.userId == uid)
  match b.currentRental with
  | some cr =>
    if cr.userId == uid && !(acc1.any (fun r => r.id == cr.id)) then
      acc1 ++ [cr]
    else acc1
  | none => acc1

/-- `MyBooksPage.fetchData` over the `GET /api/books` response: run
`myRentalsStep` over every listed book, then sort by `rentedAt`
descending. -/
def myRentalsProj (books : List BookWithStatus) (uid : Nat) :
    List Rental :=
  List.insertionSort (fun a b => b.rentedAt ≤ a.rentedAt)
    (books.foldl (myRentalsStep uid) [])

/-- Modelled from the spec: the "my rentals" projection as section 4.3
describes it — the union of (a) the rentals sitting in each listed
book's active-rental slot whose renter id matches and (b) the full
rental-history entries matching the renter id, de-duplicated by rental
id and sorted by rent time descending.  The full rental history is not
part of the `GET /api/books` response, so (b) is read off the store. -/
def specMyRentals (db : DB) (uid : Nat) : List Rental :=
  let fromSlots := (listBooks db none).foldl
    (fun acc b =>
      match b.currentRental with
      | some cr => if cr.userId == uid then acc ++ [cr] else acc
      | none => acc)
    []
  let fromHistory := db.rentals.filter (fun r => r.userId == uid)
  let merged := (fromSlots ++ fromHistory).foldl
    (fun acc r =>
      if acc.any (fun x => x.id == r.id) then acc else acc ++ [r])
    []
  List.insertionSort (fun a b => b.rentedAt ≤ a.rentedAt) merged

/-! ### Concrete sample data used by witnesses and counterexamples -/

/-- A sample book owned by user 1, currently available. -/
def bkFree : Book := ⟨10, "T", "A", none, none, "img", 1, 100⟩

/-- A sample book owned by user 1, currently rented by user 2. -/
def bkRented : Book := ⟨11, "U", "B", none, none, "img2", 1, 200⟩

/-- A closed (returned) rental of `bkFree` by user 2. -/
def rPast : Rental := ⟨100, 10, 2, 50, some 60⟩

/-- The open rental of `bkRented` by user 2. -/
def rOpen : Rental := ⟨101, 11, 2, 70, none⟩

/-- A sample store with one available and one rented book. -/
def dbW : DB := ⟨[bkFree, bkRented], [rPast, rOpen]⟩

/-! ### Helper lemmas -/

theorem mem_activeRentalsOf {db : DB} {bid : Nat} {r : Rental} :
    r ∈ activeRentalsOf db bid ↔
      r ∈ db.rentals ∧ r.bookId = bid ∧ r.returnedAt = none := by
  simp [activeRentalsOf, List.mem_filter, beq_iff_eq, and_assoc]

theorem eq_of_mem_pairwise_ne {α : Type} {key : α → Nat} :
    ∀ {l : List α}, l.Pairwise (fun a b => key a ≠ key b) →
      ∀ {x}, x ∈ l → ∀ {y}, y ∈ l → key x = key y → x = y := by
  intro l hl
  induction hl with
  | nil => intro x hx; cases hx
  | cons hhead _tail ih =>
    intro x hx y hy hxy
    cases hx with
    | head =>
      cases hy with
      | head => rfl
      | tail _ hy2 => exact absurd hxy (hhead y hy2)
    | tail _ hx2 =>
      cases hy with
      | head => exact absurd hxy.symm (hhead x hx2)
      | tail _ hy2 => exact ih hx2 hy2 hxy

theorem mem_listBooks {db : DB} {avail : Option Bool} {x : BookWithStatus} :
    x ∈ listBooks db avail ↔ ∃ b ∈ db.books,
      (avail = some true → (activeRentalsOf db b.id).length = 0) ∧
      (avail = some false → 0 < (activeRentalsOf db b.id).length) ∧
      x = { book := b, rentals := activeRentalsOf db b.id,
            isAvailable := (activeRentalsOf db b.id).length == 0,
            currentRental := (activeRentalsOf db b.id).head? } := by
  cases avail with
  | none =>
    simp [listBooks, List.mem_map, List.mem_insertionSort, eq_comm]
  | some bv =>
    cases bv with
    | true =>
      simp [listBooks, List.mem_map, List.mem_filter,
        List.mem_insertionSort]
      constructor
      · rintro ⟨a, b, ⟨⟨a1, ha1, rfl, rfl⟩, hnil⟩, rfl⟩
        exact ⟨_, ha1, hnil, rfl⟩
      · rintro ⟨b, hb, hnil, rfl⟩
        exact ⟨b, activeRentalsOf db b.id, ⟨⟨b, hb, rfl, rfl⟩, hnil⟩, rfl⟩
    | false =>
      simp [listBooks, List.mem_map, List.mem_filter,
        List.mem_insertionSort, eq_comm]
      constructor
      · rintro ⟨a, b, ⟨⟨a1, ha1, rfl, rfl⟩, hlen⟩, rfl⟩
        exact ⟨_, ha1, hlen, rfl⟩
      · rintro ⟨b, hb, hlen, rfl⟩
        exact ⟨b, activeRentalsOf db b.id, ⟨⟨b, hb, rfl, rfl⟩, hlen⟩, rfl⟩

theorem activeRentalsOf_eq_nil {db : DB} {bid : Nat} :
    activeRentalsOf db bid = [] ↔
      ¬ ∃ r ∈ db.rentals, r.bookId = bid ∧ r.returnedAt = none := by
  simp [activeRentalsOf, List.filter_eq_nil_iff, beq_iff_eq]

theorem activeRentalsOf_head_unique {db : DB} {bid : Nat} {r : Rental}
    (huniq : ∀ r1 ∈ db.rentals, ∀ r2 ∈ db.rentals,
      r1.bookId = r2.bookId → r1.returnedAt = none → r2.returnedAt = none →
      r1 = r2)
    (hr : r ∈ db.rentals) (hb : r.bookId = bid)
    (hact : r.returnedAt = none) :
    (activeRentalsOf db bid).head? = some r := by
  have hmem : r ∈ activeRentalsOf db bid :=
    mem_activeRentalsOf.mpr ⟨hr, hb, hact⟩
  have hne : activeRentalsOf db bid ≠ [] := by
    intro h
    rw [h] at hmem
    cases hmem
  rw [List.head?_eq_head hne]
  have hh := List.head_mem hne
  have hprops := mem_activeRentalsOf.mp hh
  have heq := huniq _ hprops.1 _ hr (hprops.2.1.trans hb.symm)
    hprops.2.2 hact
  rw [heq]

theorem find?_active_of_unique {l : List Rental} {r : Rental}
    (huniql : ∀ r1 ∈ l, ∀ r2 ∈ l,
      r1.returnedAt = none → r2.returnedAt = none → r1 = r2)
    (hr : r ∈ l) (hract : r.returnedAt = none) :
    l.find? (fun r2 => r2.returnedAt == none) = some r := by
  cases hfind : l.find? (fun r2 => r2.returnedAt == none) with
  | none =>
    rw [List.find?_eq_none] at hfind
    exact absurd (by simpa using hract) (hfind r hr)
  | some r2 =>
    have hmem := List.mem_of_find?_eq_some hfind
    have hact := List.find?_some hfind
    have heq : r2 = r := huniql r2 hmem r hr (by simpa using hact) hract
    rw [← heq]

/-- C1: for every book serialized by the public read operations (the
list operation, under any filter, and the single-book get), the derived
`isAvailable` flag is true iff the book has no rental with a null
`returnedAt`, and `currentRental` is the unique active rental when one
exists and none otherwise (under the at-most-one-active-rental-per-book
invariant). -/
theorem c1_derived_availability (db : DB)
    (huniq : ∀ r1 ∈ db.rentals, ∀ r2 ∈ db.rentals,
      r1.bookId = r2.bookId → r1.returnedAt = none → r2.returnedAt = none →
      r1 = r2) :
    (∀ avail : Option Bool, ∀ x ∈ listBooks db avail,
      (x.isAvailable = true ↔
        ¬ ∃ r ∈ db.rentals, r.bookId = x.book.id ∧ r.returnedAt = none) ∧
      (∀ r : Rental, x.currentRental = some r ↔
        r ∈ db.rentals ∧ r.bookId = x.book.id ∧ r.returnedAt = none)) ∧
    (∀ bid : Nat, ∀ d : BookDetail, getBook db bid = .ok d →
      (d.isAvailable = true ↔
        ¬ ∃ r ∈ db.rentals, r.bookId = d.book.id ∧ r.returnedAt = none) ∧
      (∀ r : Rental, d.currentRental = some r ↔
        r ∈ db.rentals ∧ r.bookId = d.book.id ∧ r.returnedAt = none)) := by
  constructor
  · intro avail x hx
    obtain ⟨b, hb, -, -, rfl⟩ := mem_listBooks.mp hx
    constructor
    · simp only [beq_iff_eq, List.length_eq_zero]
      exact activeRentalsOf_eq_nil
    · intro r
      constructor
      · intro h
        exact mem_activeRentalsOf.mp (List.mem_of_mem_head? h)
      · rintro ⟨hr, hbid, hact⟩
        exact activeRentalsOf_head_unique huniq hr hbid hact
  · intro bid d h
    unfold getBook at h
    split at h
    next => cases h
    next book hfind =>
      cases h
      have hbid : book.id = bid := by
        have hpred := List.find?_some hfind
        rwa [beq_iff_eq] at hpred
      have hmemhist : ∀ r : Rental,
          r ∈ List.insertionSort (fun a b => b.rentedAt ≤ a.rentedAt)
            (db.rentals.filter (fun r2 => r2.bookId == bid)) ↔
          r ∈ db.rentals ∧ r.bookId = bid := by
        intro r
        rw [List.mem_insertionSort, List.mem_filter, beq_iff_eq]
      constructor
      · dsimp only
        rw [Option.isNone_iff_eq_none, List.find?_eq_none, hbid]
        constructor
        · rintro hnone ⟨r, hr, hrb, hract⟩
          exact absurd (by simpa using hract)
            (hnone r ((hmemhist r).mpr ⟨hr, hrb⟩))
        · rintro hnone r hrmem hract
          obtain ⟨hr, hrb⟩ := (hmemhist r).mp hrmem
          exact hnone ⟨r, hr, hrb, by simpa using hract⟩
      · intro r
        dsimp only
        rw [hbid]
        constructor
        · intro hsome
          have hmem := (hmemhist r).mp (List.mem_of_find?_eq_some hsome)
          have hact := List.find?_some hsome
          exact ⟨hmem.1, hmem.2, by simpa using hact⟩
        · rintro ⟨hr, hrb, hract⟩
          refine find?_active_of_unique ?_ ((hmemhist r).mpr ⟨hr, hrb⟩) hract
          intro r1 h1 r2 h2 ha1 ha2
          obtain ⟨hm1, hb1⟩ := (hmemhist r1).mp h1
          obtain ⟨hm2, hb2⟩ := (hmemhist r2).mp h2
          exact huniq r1 hm1 r2 hm2 (hb1.trans hb2.symm) ha1 ha2

theorem find?_book_eq_none {db : DB} {bid : Nat} :
    db.books.find? (fun b => b.id == bid) = none ↔
      ¬ ∃ b ∈ db.books, b.id = bid := by
  rw [List.find?_eq_none]
  simp [beq_iff_eq]

theorem find?_eq_some_of_unique_key {α : Type} {key : α → Nat}
    {l : List α} {x : α} (hl : l.Pairwise (fun a b => key a ≠ key b))
    (hx : x ∈ l) {k : Nat} (hk : key x = k) :
    l.find? (fun y => key y == k) = some x := by
  cases hf : l.find? (fun y => key y == k) with
  | none =>
    rw [List.find?_eq_none] at hf
    exact absurd (by simp [hk]) (hf x hx)
  | some y =>
    have hm := List.mem_of_find?_eq_some hf
    have hp := List.find?_some hf
    rw [beq_iff_eq] at hp
    have heq : y = x := eq_of_mem_pairwise_ne hl hm hx (hp.trans hk.symm)
    rw [heq]

/-- C2: for a book that already has a rental with null `returnedAt`,
Rent fails with Conflict for every authenticated caller and creates no
row; for an absent book it fails with NotFound; otherwise it appends
exactly one new Rental with `returnedAt = none` for the acting user. -/
theorem c2_rent_conflict (db : DB) (uid bid newId now : Nat) :
    ((¬ ∃ b ∈ db.books, b.id = bid) →
      rentBook db (some uid) bid newId now = .error .notFound) ∧
    ((∃ b ∈ db.books, b.id = bid) →
      (∃ r ∈ db.rentals, r.bookId = bid ∧ r.returnedAt = none) →
      rentBook db (some uid) bid newId now = .error .conflict) ∧
    ((∃ b ∈ db.books, b.id = bid) →
      (¬ ∃ r ∈ db.rentals, r.bookId = bid ∧ r.returnedAt = none) →
      rentBook db (some uid) bid newId now =
        .ok ({ db with rentals := db.rentals ++
                 [⟨newId, bid, uid, now, none⟩] },
             ⟨newId, bid, uid, now, none⟩)) := by
  have hfindsome : (∃ b ∈ db.books, b.id = bid) →
      ∃ b2, db.books.find? (fun b3 => b3.id == bid) = some b2 := by
    intro hex
    have : (db.books.find? (fun b3 => b3.id == bid)).isSome = true := by
      rw [List.find?_isSome]
      obtain ⟨b, hb, hbid⟩ := hex
      exact ⟨b, hb, by simp [hbid]⟩
    exact Option.isSome_iff_exists.mp this
  refine ⟨?_, ?_, ?_⟩
  · intro hno
    simp [rentBook, find?_book_eq_none.mpr hno]
  · intro hex hact
    obtain ⟨b2, hfind⟩ := hfindsome hex
    have hlen : 0 < (activeRentalsOf db bid).length := by
      obtain ⟨r, hr, hrb, hract⟩ := hact
      have hmem : r ∈ activeRentalsOf db bid :=
        mem_activeRentalsOf.mpr ⟨hr, hrb, hract⟩
      exact List.length_pos.mpr (fun h => by rw [h] at hmem; cases hmem)
    simp [rentBook, hfind, hlen]
  · intro hex hno
    obtain ⟨b2, hfind⟩ := hfindsome hex
    have hnil : activeRentalsOf db bid = [] := activeRentalsOf_eq_nil.mpr hno
    simp [rentBook, hfind, hnil]

theorem c2_rent_conflict_witness :
    rentBook dbW (some 3) 99 7 80 = .error .notFound ∧
    rentBook dbW (some 3) 11 7 80 = .error .conflict ∧
    rentBook dbW (some 3) 10 7 80 =
      .ok ({ dbW with rentals := dbW.rentals ++ [⟨7, 10, 3, 80, none⟩] },
           ⟨7, 10, 3, 80, none⟩) :=
  ⟨(c2_rent_conflict dbW 3 99 7 80).1 (by decide),
   (c2_rent_conflict dbW 3 11 7 80).2.1 (by decide) (by decide),
   (c2_rent_conflict dbW 3 10 7 80).2.2 (by decide) (by decide)⟩

/-- C3: Return fails with NotFound when the book has no rental with
null `returnedAt`; fails with Forbidden when the active rental's renter
differs from the acting user (leaving the store untouched, as no
successor state is produced); otherwise it sets `returnedAt = now` on
exactly that active rental, every other rental row unchanged (under
distinct rental ids and the at-most-one-active-rental invariant). -/
theorem c3_return_authorization (db : DB) (uid bid now : Nat)
    (hids : db.rentals.Pairwise (fun a b => a.id ≠ b.id))
    (huniq : ∀ r1 ∈ db.rentals, ∀ r2 ∈ db.rentals,
      r1.bookId = r2.bookId → r1.returnedAt = none → r2.returnedAt = none →
      r1 = r2) :
    ((¬ ∃ r ∈ db.rentals, r.bookId = bid ∧ r.returnedAt = none) →
      returnBook db (some uid) bid now = .error .notFound) ∧
    (∀ a ∈ db.rentals, a.bookId = bid → a.returnedAt = none →
      (a.userId ≠ uid →
        returnBook db (some uid) bid now = .error .forbidden) ∧
      (a.userId = uid →
        returnBook db (some uid) bid now =
          .ok ({ db with rentals := db.rentals.map (fun r =>
                   if r = a then { a with returnedAt := some now } else r) },
               { a with returnedAt := some now }))) := by
  constructor
  · intro hno
    have hfind : db.rentals.find?
        (fun r => r.bookId == bid && r.returnedAt == none) = none := by
      rw [List.find?_eq_none]
      intro r hr hpred
      rw [Bool.and_eq_true, beq_iff_eq, beq_iff_eq] at hpred
      exact hno ⟨r, hr, hpred.1, hpred.2⟩
    simp [returnBook, hfind]
  · intro a ha hab hact
    have hfind : db.rentals.find?
        (fun r => r.bookId == bid && r.returnedAt == none) = some a := by
      cases hf : db.rentals.find?
          (fun r => r.bookId == bid && r.returnedAt == none) with
      | none =>
        rw [List.find?_eq_none] at hf
        exact absurd (by simp [hab, hact]) (hf a ha)
      | some a2 =>
        have hm := List.mem_of_find?_eq_some hf
        have hp := List.find?_some hf
        rw [Bool.and_eq_true, beq_iff_eq, beq_iff_eq] at hp
        have heq : a2 = a :=
          huniq a2 hm a ha (hp.1.trans hab.symm) hp.2 hact
        rw [heq]
    constructor
    · intro hne
      simp [returnBook, hfind, hne]
    · intro heq
      simp [returnBook, hfind, heq]
      intro r hr
      by_cases hcase : r.id = a.id
      · have hra : r = a := eq_of_mem_pairwise_ne hids hr ha hcase
        simp [hcase, hra]
      · have hra : r ≠ a := fun h => hcase (by rw [h])
        simp [hcase, hra]

theorem c3_return_authorization_witness :
    returnBook dbW (some 2) 10 90 = .error .notFound ∧
    returnBook dbW (some 3) 11 90 = .error .forbidden ∧
    returnBook dbW (some 2) 11 90 =
      .ok ({ dbW with rentals := dbW.rentals.map (fun r =>
               if r = rOpen then { rOpen with returnedAt := some 90 }
               else r) },
           { rOpen with returnedAt := some 90 }) :=
  ⟨(c3_return_authorization dbW 2 10 90 (by decide) (by decide)).1
     (by decide),
   ((c3_return_authorization dbW 3 11 90 (by decide) (by decide)).2
     rOpen (by decide) (by decide) (by decide)).1 (by decide),
   ((c3_return_authorization dbW 2 11 90 (by decide) (by decide)).2
     rOpen (by decide) (by decide) (by decide)).2 (by decide)⟩

/-- C4: Delete fails with NotFound when the book is absent and with
Forbidden when the acting user is not the book's owner (producing no
successor state in either case); on success it removes every Rental
referencing the book together with the Book itself, while every other
rental and book row survives (under distinct book ids). -/
theorem c4_delete_cascades (db : DB) (uid bid : Nat)
    (hbids : db.books.Pairwise (fun a b => a.id ≠ b.id)) :
    ((¬ ∃ b ∈ db.books, b.id = bid) →
      deleteBook db (some uid) bid = .error .notFound) ∧
    (∀ b ∈ db.books, b.id = bid → b.ownerId ≠ uid →
      deleteBook db (some uid) bid = .error .forbidden) ∧
    (∀ b ∈ db.books, b.id = bid → b.ownerId = uid →
      ∃ db2, deleteBook db (some uid) bid = .ok db2 ∧
        (∀ r ∈ db2.rentals, r.bookId ≠ bid) ∧
        (∀ b2 ∈ db2.books, b2.id ≠ bid) ∧
        (∀ r ∈ db.rentals, r.bookId ≠ bid → r ∈ db2.rentals) ∧
        (∀ b2 ∈ db.books, b2.id ≠ bid → b2 ∈ db2.books)) := by
  refine ⟨?_, ?_, ?_⟩
  · intro hno
    simp [deleteBook, find?_book_eq_none.mpr hno]
  · intro b hb hbid hown
    have hfind := find?_eq_some_of_unique_key hbids hb hbid
    simp [deleteBook, hfind, hown]
  · intro b hb hbid hown
    have hfind := find?_eq_some_of_unique_key hbids hb hbid
    refine ⟨⟨db.books.filter (fun b2 => !(b2.id == bid)),
             db.rentals.filter (fun r => !(r.bookId == bid))⟩,
      ?_, ?_, ?_, ?_, ?_⟩
    · simp [deleteBook, hfind, hown]
    · intro r hr
      have := (List.mem_filter.mp hr).2
      simpa using this
    · intro b2 hb2
      have := (List.mem_filter.mp hb2).2
      simpa using this
    · intro r hr hne
      exact List.mem_filter.mpr ⟨hr, by simpa using hne⟩
    · intro b2 hb2 hne
      exact List.mem_filter.mpr ⟨hb2, by simpa using hne⟩

theorem c4_delete_cascades_witness :
    deleteBook dbW (some 1) 99 = .error .notFound ∧
    deleteBook dbW (some 2) 10 = .error .forbidden ∧
    ∃ db2, deleteBook dbW (some 1) 10 = .ok db2 ∧
      (∀ r ∈ db2.rentals, r.bookId ≠ 10) :=
  ⟨(c4_delete_cascades dbW 1 99 (by decide)).1 (by decide),
   (c4_delete_cascades dbW 2 10 (by decide)).2.1 bkFree (by decide)
     (by decide) (by decide),
   match (c4_delete_cascades dbW 1 10 (by decide)).2.2 bkFree (by decide)
     (by decide) (by decide) with
   | ⟨db2, hok, hr, _, _, _⟩ => ⟨db2, hok, hr⟩⟩

/-- C9: Delete by the owner has no availability precondition: when the
book's active rental is held by any user, the owner's Delete succeeds
and removes both that active rental and the book. -/
theorem c9_delete_ignores_active_rental (db : DB) (owner bid : Nat)
    (b : Book) (r : Rental)
    (hbids : db.books.Pairwise (fun a b2 => a.id ≠ b2.id))
    (hb : b ∈ db.books) (hid : b.id = bid) (hown : b.ownerId = owner)
    (hr : r ∈ db.rentals) (hrb : r.bookId = bid)
    (hract : r.returnedAt = none) :
    ∃ db2, deleteBook db (some owner) bid = .ok db2 ∧
      r ∉ db2.rentals ∧ b ∉ db2.books := by
  have hfind := find?_eq_some_of_unique_key hbids hb hid
  refine ⟨⟨db.books.filter (fun b2 => !(b2.id == bid)),
           db.rentals.filter (fun r2 => !(r2.bookId == bid))⟩, ?_, ?_, ?_⟩
  · simp [deleteBook, hfind, hown]
  · intro hmem
    have := (List.mem_filter.mp hmem).2
    simp [hrb] at this
  · intro hmem
    have := (List.mem_filter.mp hmem).2
    simp [hid] at this

theorem c9_delete_ignores_active_rental_witness :
    ∃ db2, deleteBook dbW (some 1) 11 = .ok db2 ∧
      rOpen ∉ db2.rentals ∧ bkRented ∉ db2.books :=
  c9_delete_ignores_active_rental dbW 1 11 bkRented rOpen (by decide)
    (by decide) (by decide) (by decide) (by decide) (by decide) (by decide)

/-- C6: a Rental whose `returnedAt` is non-null is never modified by any
operation: after any successful Rent, Return, Delete or Create, every
surviving rental row bearing its id is the unchanged row (with distinct
rental ids and a store-fresh id for Rent's insertion). -/
theorem c6_returned_rental_immutable (db : DB)
    (uid bid newId now t : Nat) (body : CreateBody) (r : Rental)
    (hids : db.rentals.Pairwise (fun a b => a.id ≠ b.id))
    (hr : r ∈ db.rentals) (hret : r.returnedAt = some t)
    (hfresh : ∀ r2 ∈ db.rentals, r2.id ≠ newId) :
    (∀ db2 x, rentBook db (some uid) bid newId now = .ok (db2, x) →
      ∀ r2 ∈ db2.rentals, r2.id = r.id → r2 = r) ∧
    (∀ db2 x, returnBook db (some uid) bid now = .ok (db2, x) →
      ∀ r2 ∈ db2.rentals, r2.id = r.id → r2 = r) ∧
    (∀ db2, deleteBook db (some uid) bid = .ok db2 →
      ∀ r2 ∈ db2.rentals, r2.id = r.id → r2 = r) ∧
    (∀ db2 x, createBook db (some uid) body newId now = .ok (db2, x) →
      ∀ r2 ∈ db2.rentals, r2.id = r.id → r2 = r) := by
  refine ⟨?_, ?_, ?_, ?_⟩
  · intro db2 x h
    simp only [rentBook] at h
    split at h
    next => cases h
    next b hfind =>
      split at h
      next => cases h
      next =>
        cases h
        intro r2 hmem hid
        rw [List.mem_append] at hmem
        cases hmem with
        | inl hmem2 => exact eq_of_mem_pairwise_ne hids hmem2 hr hid
        | inr hmem2 =>
          rw [List.mem_singleton] at hmem2
          rw [hmem2] at hid
          exact absurd hid.symm (hfresh r hr)
  · intro db2 x h
    simp only [returnBook] at h
    split at h
    next => cases h
    next a hfind =>
      have hamem := List.mem_of_find?_eq_some hfind
      have hapred := List.find?_some hfind
      rw [Bool.and_eq_true, beq_iff_eq, beq_iff_eq] at hapred
      split at h
      next => cases h
      next =>
        cases h
        intro r2 hmem hid
        rw [List.mem_map] at hmem
        obtain ⟨r3, hr3, hval⟩ := hmem
        by_cases hcase : r3.id = a.id
        · rw [if_pos (by simp [hcase])] at hval
          have hra : a.id = r.id := by rw [← hval] at hid; exact hid
          have haeq : a = r := eq_of_mem_pairwise_ne hids hamem hr hra
          rw [haeq] at hapred
          rw [hret] at hapred
          cases hapred.2
        · rw [if_neg (by simp [hcase])] at hval
          rw [← hval] at hid ⊢
          exact eq_of_mem_pairwise_ne hids hr3 hr hid
  · intro db2 h
    simp only [deleteBook] at h
    split at h
    next => cases h
    next b hfind =>
      split at h
      next => cases h
      next =>
        cases h
        intro r2 hmem hid
        exact eq_of_mem_pairwise_ne hids (List.mem_filter.mp hmem).1 hr hid
  · intro db2 x h
    simp only [createBook] at h
    split at h
    next => cases h
    next =>
      cases h
      intro r2 hmem hid
      exact eq_of_mem_pairwise_ne hids hmem hr hid

theorem c6_returned_rental_immutable_witness :
    (⟨100, 10, 2, 50, some 60⟩ : Rental) = rPast :=
  ((c6_returned_rental_immutable dbW 2 11 7 90 60
      ⟨none, none, none, none, none⟩ rPast (by decide) (by decide)
      (by decide) (by decide)).2.1
    ({ dbW with rentals := [rPast, { rOpen with returnedAt := some 90 }] })
    { rOpen with returnedAt := some 90 } (by rfl))
    ⟨100, 10, 2, 50, some 60⟩ (by decide) (by decide)

/-- C7: Create fails with Unauthorized when no user is authenticated,
fails with BadRequest when title, author or coverImage is absent (no
row inserted in either failure), and otherwise appends exactly one Book
row owned by the calling user. -/
theorem c7_create_validation (db : DB) (body : CreateBody)
    (uid newId now : Nat) :
    (createBook db none body newId now = .error .unauthorized) ∧
    ((body.title = none ∨ body.author = none ∨ body.coverImage = none) →
      createBook db (some uid) body newId now = .error .badRequest) ∧
    (∀ t a c, body.title = some t → t ≠ "" → body.author = some a →
      a ≠ "" → body.coverImage = some c → c ≠ "" →
      ∃ bk : Book, createBook db (some uid) body newId now =
        .ok ({ db with books := db.books ++ [bk] }, bk) ∧
        bk.ownerId = uid) := by
  refine ⟨rfl, ?_, ?_⟩
  · intro h
    rcases h with h | h | h <;> simp [createBook, truthyStr, h]
  · intro t a c ht hte ha hae hc hce
    refine ⟨⟨newId, t, a, body.isbn, body.description, c, uid, now⟩,
      ?_, rfl⟩
    simp [createBook, truthyStr, ht, ha, hc, hte, hae, hce]

theorem c7_create_validation_witness :
    createBook dbW none ⟨some "t", some "a", none, none, some "c"⟩ 7 300
      = .error .unauthorized ∧
    createBook dbW (some 5) ⟨none, some "a", none, none, some "c"⟩ 7 300
      = .error .badRequest ∧
    ∃ bk : Book,
      createBook dbW (some 5) ⟨some "t", some "a", none, none, some "c"⟩
        7 300 = .ok ({ dbW with books := dbW.books ++ [bk] }, bk) ∧
      bk.ownerId = 5 :=
  ⟨(c7_create_validation dbW ⟨some "t", some "a", none, none, some "c"⟩
      5 7 300).1,
   (c7_create_validation dbW ⟨none, some "a", none, none, some "c"⟩
      5 7 300).2.1 (Or.inl rfl),
   (c7_create_validation dbW ⟨some "t", some "a", none, none, some "c"⟩
      5 7 300).2.2 "t" "a" "c" rfl (by decide) rfl (by decide) rfl
      (by decide)⟩

/-- C10: Create treats an empty string like an absent value: when
title, author or coverImage is the empty string, it fails with
BadRequest and inserts no Book row. -/
theorem c10_create_empty_string (db : DB) (body : CreateBody)
    (uid newId now : Nat)
    (h : body.title = some "" ∨ body.author = some "" ∨
      body.coverImage = some "") :
    createBook db (some uid) body newId now = .error .badRequest := by
  rcases h with h | h | h <;> simp [createBook, truthyStr, h]

theorem c10_create_empty_string_witness :
    createBook dbW (some 5) ⟨some "", some "a", none, none, some "c"⟩
      7 300 = .error .badRequest :=
  c10_create_empty_string dbW ⟨some "", some "a", none, none, some "c"⟩
    5 7 300 (Or.inl rfl)

theorem myRentalsStep_eq_of_consistent (uid : Nat) (acc : List Rental)
    (b : BookWithStatus)
    (hcons : ∀ cr, b.currentRental = some cr → cr ∈ b.rentals) :
    myRentalsStep uid acc b =
      acc ++ b.rentals.filter (fun r => r.userId == uid) := by
  unfold myRentalsStep
  cases hc : b.currentRental with
  | none => rfl
  | some cr =>
    dsimp only
    rw [if_neg]
    intro hcond
    rw [Bool.and_eq_true] at hcond
    obtain ⟨hu, hnot⟩ := hcond
    have hcr : cr ∈ acc ++ b.rentals.filter (fun r => r.userId == uid) := by
      rw [List.mem_append]
      exact Or.inr (List.mem_filter.mpr ⟨hcons cr hc, hu⟩)
    have hany : (acc ++ b.rentals.filter
        (fun r => r.userId == uid)).any (fun r => r.id == cr.id) = true :=
      List.any_eq_true.mpr ⟨cr, hcr, by simp⟩
    rw [hany] at hnot
    simp at hnot

theorem mem_myRentals_fold (uid : Nat) :
    ∀ bs : List BookWithStatus,
      (∀ b ∈ bs, ∀ cr, b.currentRental = some cr → cr ∈ b.rentals) →
      ∀ (acc : List Rental) (r : Rental),
        (r ∈ bs.foldl (myRentalsStep uid) acc ↔
          r ∈ acc ∨ ∃ b ∈ bs, r ∈ b.rentals ∧ r.userId = uid) := by
  intro bs
  induction bs with
  | nil =>
    intro _ acc r
    simp
  | cons b bs ih =>
    intro hcons acc r
    rw [List.foldl_cons, myRentalsStep_eq_of_consistent uid acc b
      (hcons b (List.mem_cons_self b bs)),
      ih (fun b2 hb2 => hcons b2 (List.mem_cons_of_mem b hb2)) _ r]
    simp [List.mem_append, List.mem_filter, beq_iff_eq, or_assoc]


/-- C5 (amended): over the list operation's output the "my rentals"
projection is de-duplicated by rental id and sorted by rent time
descending, but it contains exactly the caller's active (unreturned)
rentals of listed books — the list operation embeds only active rentals
in each book's `rentals` slot and `currentRental`, so past (returned)
rentals never appear in the projection. -/
theorem c5_my_rentals_amended (db : DB) (uid : Nat) :
    (∀ r : Rental, r ∈ myRentalsProj (listBooks db none) uid ↔
      (r.userId = uid ∧ r.returnedAt = none ∧ r ∈ db.rentals ∧
        ∃ b ∈ db.books, b.id = r.bookId)) ∧
    (myRentalsProj (listBooks db none) uid).Pairwise
      (fun a b => b.rentedAt ≤ a.rentedAt) := by
  have hcons : ∀ x ∈ listBooks db none, ∀ cr,
      x.currentRental = some cr → cr ∈ x.rentals := by
    intro x hx cr hcr
    obtain ⟨b, hb, -, -, rfl⟩ := mem_listBooks.mp hx
    exact List.mem_of_mem_head? hcr
  constructor
  · intro r
    unfold myRentalsProj
    rw [List.mem_insertionSort, mem_myRentals_fold uid _ hcons _ r]
    simp only [List.not_mem_nil, false_or]
    constructor
    · rintro ⟨x, hx, hrx, hu⟩
      obtain ⟨b, hb, -, -, rfl⟩ := mem_listBooks.mp hx
      obtain ⟨hmem, hbid, hact⟩ := mem_activeRentalsOf.mp hrx
      exact ⟨hu, hact, hmem, b, hb, hbid.symm⟩
    · rintro ⟨hu, hact, hmem, b, hb, hbid⟩
      refine ⟨_, mem_listBooks.mpr ⟨b, hb, ?_, ?_, rfl⟩, ?_, hu⟩
      · intro h
        exact nomatch h
      · intro h
        exact nomatch h
      · exact mem_activeRentalsOf.mpr ⟨hmem, hbid.symm, hact⟩
  · unfold myRentalsProj
    haveI htot : IsTotal Rental (fun a b => b.rentedAt ≤ a.rentedAt) :=
      ⟨fun a b => Nat.le_total b.rentedAt a.rentedAt⟩
    haveI htrans : IsTrans Rental (fun a b => b.rentedAt ≤ a.rentedAt) :=
      ⟨fun a b c hab hbc => Nat.le_trans hbc hab⟩
    exact List.sorted_insertionSort (fun a b => b.rentedAt ≤ a.rentedAt)
      ((listBooks db none).foldl (myRentalsStep uid) [])

theorem c5_my_rentals_amended_witness :
    rOpen ∈ myRentalsProj (listBooks dbW none) 2 :=
  ((c5_my_rentals_amended dbW 2).1 rOpen).mpr
    ⟨rfl, rfl, by decide, bkRented, by decide, rfl⟩

/-- C5 counterexample: in the sample store `dbW`, user 2's returned
rental `rPast` is a full rental-history entry with matching renter id
(so the spec's union `specMyRentals` contains it), yet the client
projection computed from the list operation's output does not contain
it and differs from that union: the projection misses past (returned)
rentals. -/
theorem c5_my_rentals_counterexample :
    rPast ∈ dbW.rentals ∧ rPast.userId = 2 ∧ rPast.returnedAt = some 60 ∧
    rPast ∈ specMyRentals dbW 2 ∧
    rPast ∉ myRentalsProj (listBooks dbW none) 2 ∧
    myRentalsProj (listBooks dbW none) 2 ≠ specMyRentals dbW 2 := by
  decide

/-- C8: list with `available=true` returns exactly the books with no
active rental, `available=false` exactly those with at least one, no
filter returns all books; and every returned entry carries the derived
`isAvailable` flag and `currentRental` computed from the active-rental
set. -/
theorem c8_list_filter (db : DB) (b : Book) :
    ((∃ x ∈ listBooks db (some true), x.book = b) ↔
      b ∈ db.books ∧
        ¬ ∃ r ∈ db.rentals, r.bookId = b.id ∧ r.returnedAt = none) ∧
    ((∃ x ∈ listBooks db (some false), x.book = b) ↔
      b ∈ db.books ∧
        ∃ r ∈ db.rentals, r.bookId = b.id ∧ r.returnedAt = none) ∧
    ((∃ x ∈ listBooks db none, x.book = b) ↔ b ∈ db.books) ∧
    (∀ avail : Option Bool, ∀ x ∈ listBooks db avail,
      (x.isAvailable = true ↔
        ¬ ∃ r ∈ db.rentals, r.bookId = x.book.id ∧ r.returnedAt = none) ∧
      x.currentRental = (activeRentalsOf db x.book.id).head?) := by
  refine ⟨⟨?_, ?_⟩, ⟨?_, ?_⟩, ⟨?_, ?_⟩, ?_⟩
  · rintro ⟨x, hx, rfl⟩
    obtain ⟨b2, hb2, ht, -, rfl⟩ := mem_listBooks.mp hx
    exact ⟨hb2, activeRentalsOf_eq_nil.mp
      (List.length_eq_zero.mp (ht rfl))⟩
  · rintro ⟨hb, hno⟩
    have hnil : activeRentalsOf db b.id = [] :=
      activeRentalsOf_eq_nil.mpr hno
    refine ⟨_, mem_listBooks.mpr ⟨b, hb, ?_, ?_, rfl⟩, rfl⟩
    · intro _
      rw [hnil]
      rfl
    · intro h
      exact nomatch h
  · rintro ⟨x, hx, rfl⟩
    obtain ⟨b2, hb2, -, hf, rfl⟩ := mem_listBooks.mp hx
    have hlen := hf rfl
    have hne : activeRentalsOf db b2.id ≠ [] := by
      intro h
      rw [h] at hlen
      cases hlen
    have hhead := List.head_mem hne
    obtain ⟨hm, hbid, hact⟩ := mem_activeRentalsOf.mp hhead
    exact ⟨hb2, _, hm, hbid, hact⟩
  · rintro ⟨hb, r, hr, hrb, hract⟩
    have hmem : r ∈ activeRentalsOf db b.id :=
      mem_activeRentalsOf.mpr ⟨hr, hrb, hract⟩
    refine ⟨_, mem_listBooks.mpr ⟨b, hb, ?_, ?_, rfl⟩, rfl⟩
    · intro h
      exact nomatch h
    · intro _
      refine List.length_pos.mpr (fun h => ?_)
      rw [h] at hmem
      cases hmem
  · rintro ⟨x, hx, rfl⟩
    obtain ⟨b2, hb2, -, -, rfl⟩ := mem_listBooks.mp hx
    exact hb2
  · intro hb
    refine ⟨_, mem_listBooks.mpr ⟨b, hb, ?_, ?_, rfl⟩, rfl⟩
    · intro h
      exact nomatch h
    · intro h
      exact nomatch h
  · intro avail x hx
    obtain ⟨b2, hb2, -, -, rfl⟩ := mem_listBooks.mp hx
    refine ⟨?_, rfl⟩
    simp only [beq_iff_eq, List.length_eq_zero]
    exact activeRentalsOf_eq_nil

theorem c8_list_filter_witness :
    (∃ x ∈ listBooks dbW (some true), x.book = bkFree) ∧
    (∃ x ∈ listBooks dbW (some false), x.book = bkRented) :=
  ⟨(c8_list_filter dbW bkFree).1.mpr ⟨by decide, by decide⟩,
   (c8_list_filter dbW bkRented).2.1.mpr ⟨by decide, rOpen, by decide,
     rfl, rfl⟩⟩

theorem c1_derived_availability_witness :
    ((⟨bkRented, [rOpen], false, some rOpen⟩ :
        BookWithStatus).isAvailable = true ↔
      ¬ ∃ r ∈ dbW.rentals,
        r.bookId = (⟨bkRented, [rOpen], false, some rOpen⟩ :
          BookWithStatus).book.id ∧ r.returnedAt = none) :=
  ((c1_derived_availability dbW (by decide)).1 none
    ⟨bkRented, [rOpen], false, some rOpen⟩ (by decide)).1
